import Mathlib

set_option maxRecDepth 8000

/-!
# Verification of the CPC-Scout local similarity engine (`src/app.py`)

A shallow embedding of the keyword-to-classification ranking pipeline of
`src/app.py`: a fixed 16-row corpus of (CPC code, description) pairs is
indexed with a TF-IDF vectorizer (scikit-learn defaults: lowercasing,
word tokens of at least two word characters, English stop-word removal,
smoothed idf `ln((1+n)/(1+df)) + 1`, L2 row normalization); a query is
scored against every corpus row by cosine similarity; indices are sorted
by descending score, truncated to `top_n`, and filtered to strictly
positive scores; the surviving rows get 2D plot coordinates, via a PCA
projection fitted on the kept rows when there are at least 3 of them and
as the origin otherwise.

Modelling conventions:
* machine floats become exact reals (`ℝ`), so scores are the ideal
  real-arithmetic values of the same formulas;
* `numpy.argsort()[::-1]` is modelled as a deterministic sort of the
  index list by weakly descending score (numpy leaves the order of tied
  scores unspecified; every claim below is insensitive to tie order);
* character classes are the ASCII fragment of Python's `\w` /
  `str.lower`, which covers the entire corpus and all concrete queries;
* the sparse TF-IDF vectors become functions `String → ℝ` whose reads
  are always summed over the fitted vocabulary finset, mirroring the
  fixed feature dimension of the scipy matrices.
-/

/-- The frozen English stop-word list used by scikit-learn's
`TfidfVectorizer(stop_words='english')`
(`sklearn.feature_extraction._stop_words.ENGLISH_STOP_WORDS`). -/
def sklearnStopWords : List String :=
  ["a", "about", "above", "across", "after", "afterwards", "again", "against",
   "all", "almost", "alone", "along", "already", "also", "although", "always",
   "am", "among", "amongst", "amoungst", "amount", "an", "and", "another",
   "any", "anyhow", "anyone", "anything", "anyway", "anywhere", "are",
   "around", "as", "at", "back", "be", "became", "because", "become",
   "becomes", "becoming", "been", "before", "beforehand", "behind", "being",
   "below", "beside", "besides", "between", "beyond", "bill", "both",
   "bottom", "but", "by", "call", "can", "cannot", "cant", "co", "con",
   "could", "couldnt", "cry", "de", "describe", "detail", "do", "done",
   "down", "due", "during", "each", "eg", "eight", "either", "eleven",
   "else", "elsewhere", "empty", "enough", "etc", "even", "ever", "every",
   "everyone", "everything", "everywhere", "except", "few", "fifteen",
   "fifty", "fill", "find", "fire", "first", "five", "for", "former",
   "formerly", "forty", "found", "four", "from", "front", "full", "further",
   "get", "give", "go", "had", "has", "hasnt", "have", "he", "hence", "her",
   "here", "hereafter", "hereby", "herein", "hereupon", "hers", "herself",
   "him", "himself", "his", "how", "however", "hundred", "i", "ie", "if",
   "in", "inc", "indeed", "interest", "into", "is", "it", "its", "itself",
   "keep", "last", "latter", "latterly", "least", "less", "ltd", "made",
   "many", "may", "me", "meanwhile", "might", "mill", "mine", "more",
   "moreover", "most", "mostly", "move", "much", "must", "my", "myself",
   "name", "namely", "neither", "never", "nevertheless", "next", "nine",
   "no", "nobody", "none", "noone", "nor", "not", "nothing", "now",
   "nowhere", "of", "off", "often", "on", "once", "one", "only", "onto",
   "or", "other", "others", "otherwise", "our", "ours", "ourselves", "out",
   "over", "own", "part", "per", "perhaps", "please", "put", "rather", "re",
   "same", "see", "seem", "seemed", "seeming", "seems", "serious", "several",
   "she", "should", "show", "side", "since", "sincere", "six", "sixty", "so",
   "some", "somehow", "someone", "something", "sometime", "sometimes",
   "somewhere", "still", "such", "system", "take", "ten", "than", "that",
   "the", "their", "them", "themselves", "then", "thence", "there",
   "thereafter", "thereby", "therefore", "therein", "thereupon", "these",
   "they", "thick", "thin", "third", "this", "those", "though", "three",
   "through", "throughout", "thru", "thus", "to", "together", "too", "top",
   "toward", "towards", "twelve", "twenty", "two", "un", "under", "until",
   "up", "upon", "us", "very", "via", "was", "we", "well", "were", "what",
   "whatever", "when", "whence", "whenever", "where", "whereafter",
   "whereas", "whereby", "wherein", "whereupon", "wherever", "whether",
   "which", "while", "whither", "who", "whoever", "whole", "whom", "whose",
   "why", "will", "with", "within", "without", "would", "yet", "you",
   "your", "yours", "yourself", "yourselves"]

/-- ASCII fragment of the regex class `\w` used by the default token
pattern `(?u)\b\w\w+\b` of `TfidfVectorizer`. -/
def isWordChar (c : Char) : Bool := c.isAlphanum || c = '_'

/-- Splits a character list into its maximal runs of word characters
(the non-overlapping matches of `\b\w\w+\b` before the length-≥-2
filter); the second argument accumulates the current run in reverse. -/
def wordRuns : List Char → List Char → List String
  | [], cur => if cur.isEmpty then [] else [String.mk cur.reverse]
  | c :: cs, cur =>
    if isWordChar c then wordRuns cs (c :: cur)
    else if cur.isEmpty then wordRuns cs []
    else String.mk cur.reverse :: wordRuns cs []

/-- The analyzer of `TfidfVectorizer(stop_words='english')` with default
settings: lowercase, extract word tokens of length ≥ 2, drop English
stop words. -/
def tokenize (s : String) : List String :=
  ((wordRuns (s.data.map Char.toLower) []).filter (fun t => 2 ≤ t.length)).filter
    (fun t => !(sklearnStopWords.contains t))

/-- The hard-coded 16-row demo corpus of `load_engine` in `src/app.py`:
`(code, description)` pairs. -/
def corpus : List (String × String) :=
  [("B64C 39/02", "Aircraft not otherwise provided for; Unmanned aerial vehicles (drones)"),
   ("G06N 3/00", "Computer systems based on biological models (Artificial Intelligence/Neural Networks)"),
   ("H04L 9/00", "Cryptographic mechanisms or cryptographic arrangements for secret communication"),
   ("A61B 5/00", "Measuring for diagnostic purposes; Identification of persons"),
   ("B60W 30/00", "Road vehicle drive control systems (Autonomous Driving/ADAS)"),
   ("G06Q 20/00", "Payment architectures, schemes or protocols (Fintech)"),
   ("F03D 1/00", "Wind motors with rotation axis substantially parallel to the air flow"),
   ("H01M 10/00", "Secondary cells; Manufacture thereof (Batteries/Li-Ion)"),
   ("G06F 40/20", "Natural language processing (NLP); Text analysis"),
   ("H04W 4/00", "Services making use of wireless communication networks"),
   ("B64D 1/00", "Dropping or releasing articles from aircraft"),
   ("G06N 20/00", "Machine Learning"),
   ("H04L 63/00", "Network architectures or network communication protocols for network security"),
   ("A61B 5/02", "Measuring pulse, heart rate, blood pressure"),
   ("B60W 40/00", "Estimation or calculation of driving parameters for road vehicle drive control"),
   ("G06Q 30/00", "Commerce, e.g. shopping or auctions")]

/-- The `search_text` column: `df['code'] + " " + df['description']`. -/
def searchTexts : List String := corpus.map (fun p => p.1 ++ " " ++ p.2)

/-- The token lists the vectorizer extracts from each corpus row during
`fit_transform`. -/
def docTokensList : List (List String) := searchTexts.map tokenize

/-- Token list of corpus row `i` (empty beyond the corpus). -/
def docToks (i : ℕ) : List String := docTokensList.getD i []

/-- Document frequency of term `t`: the number of corpus rows whose
token list contains `t`. -/
def dfN (t : String) : ℕ := (docTokensList.filter (fun toks => toks.contains t)).length

/-- The fitted vocabulary, as the set of all corpus tokens (scikit-learn
additionally fixes an alphabetical column order for the feature matrix;
only the set matters for every dot product and norm below). -/
def vocabFinset : Finset String := docTokensList.flatten.toFinset

open scoped Classical

/-- Dot product of two feature vectors over the fitted vocabulary (the
feature dimension of the scipy matrices). -/
noncomputable def dotF (V : Finset String) (u v : String → ℝ) : ℝ := ∑ t ∈ V, u t * v t

/-- Euclidean norm over the feature dimension, as used by scikit-learn's
`normalize` (inside both the vectorizer's L2 step and
`cosine_similarity`). -/
noncomputable def norm2F (V : Finset String) (u : String → ℝ) : ℝ :=
  Real.sqrt (∑ t ∈ V, u t ^ 2)

/-- scikit-learn's row L2 normalization: divide by the norm, dividing by
`1` instead when the norm is zero (`norms[norms == 0.0] = 1.0`). -/
noncomputable def l2nF (V : Finset String) (u : String → ℝ) : String → ℝ :=
  fun t => u t / (if norm2F V u = 0 then 1 else norm2F V u)

/-- Smoothed inverse document frequency of the fitted vectorizer
(`TfidfVectorizer` defaults: `smooth_idf=True`):
`ln((1 + n) / (1 + df(t))) + 1` with `n` the number of corpus rows. -/
noncomputable def idf (t : String) : ℝ :=
  Real.log ((1 + (docTokensList.length : ℝ)) / (1 + (dfN t : ℝ))) + 1

/-- Unnormalized TF-IDF vector of corpus row `i`: raw term count times
idf.  (Every token of row `i` is in the vocabulary, so no vocabulary
guard is needed: coordinates outside it are already zero.) -/
noncomputable def rawDocVec (i : ℕ) : String → ℝ :=
  fun t => (((docToks i).count t : ℕ) : ℝ) * idf t

/-- Row `i` of `tfidf_matrix`: the L2-normalized TF-IDF vector, as
produced by `vectorizer.fit_transform` (default `norm='l2'`). -/
noncomputable def tfidfRow (i : ℕ) : String → ℝ := l2nF vocabFinset (rawDocVec i)

/-- One row of the corpus dataframe `df` built in `load_engine`:
columns `code`, `description` and the derived `search_text`. -/
structure DfRow where
  code : String
  description : String
  search_text : String

/-- The state of the fitted `TfidfVectorizer`: its vocabulary and idf
weights. -/
structure Vectorizer where
  vocab : Finset String
  idfW : String → ℝ

/-- The process-wide engine returned by `load_engine` and read by every
call of `search_and_cluster`: the dataframe `df`, the fitted
`vectorizer` and the L2-normalized `tfidf_matrix`. -/
structure Engine where
  df : List DfRow
  vectorizer : Vectorizer
  tfidf_matrix : List (String → ℝ)

/-- `load_engine` of `src/app.py`: build the dataframe, derive
`search_text`, fit the vectorizer on the 16 search texts and keep the
TF-IDF matrix.  (`@st.cache_resource` memoizes this per process.) -/
noncomputable def load_engine : Engine :=
  { df := corpus.map (fun p => ⟨p.1, p.2, p.1 ++ " " ++ p.2⟩)
  , vectorizer := ⟨vocabFinset, idf⟩
  , tfidf_matrix := (List.range docTokensList.length).map tfidfRow }

/-- The unnormalized query vector of `vectorizer.transform([query])`:
count only vocabulary terms of the analyzed query, weight by idf. -/
noncomputable def rawQueryVec (v : Vectorizer) (q : String) : String → ℝ :=
  fun t => (if t ∈ v.vocab then (((tokenize q).count t : ℕ) : ℝ) else 0) * v.idfW t

/-- `vectorizer.transform([query])`: the raw query vector, L2-normalized
(default `norm='l2'`). -/
noncomputable def Vectorizer.transform (v : Vectorizer) (q : String) : String → ℝ :=
  l2nF v.vocab (rawQueryVec v q)

/-- Coordinatewise mean of a list of feature vectors. -/
noncomputable def meanVec (rows : List (String → ℝ)) (t : String) : ℝ :=
  (rows.map (fun r => r t)).sum / rows.length

/-- Covariance-style scatter matrix of a list of feature vectors about
their mean. -/
noncomputable def covMat (rows : List (String → ℝ)) (a b : String) : ℝ :=
  (rows.map (fun r => (r a - meanVec rows a) * (r b - meanVec rows b))).sum

/-- Two feature vectors of unit length that are orthogonal, over the
feature dimension `V`. -/
def IsOrthonormalPair (V : Finset String) (p : (String → ℝ) × (String → ℝ)) : Prop :=
  (∑ t ∈ V, p.1 t * p.1 t) = 1 ∧ (∑ t ∈ V, p.2 t * p.2 t) = 1 ∧
    (∑ t ∈ V, p.1 t * p.2 t) = 0

/-- The quadratic form of a scatter matrix: the variance of the data
projected on the direction `u` (times the row count). -/
noncomputable def quadForm (V : Finset String) (C : String → String → ℝ) (u : String → ℝ) : ℝ :=
  ∑ a ∈ V, ∑ b ∈ V, u a * C a b * u b

/-- An orthonormal pair of directions maximizing the total projected
variance of the scatter matrix `C` — the defining property of the first
two principal components. -/
def IsPrincipalPair (V : Finset String) (C : String → String → ℝ)
    (p : (String → ℝ) × (String → ℝ)) : Prop :=
  IsOrthonormalPair V p ∧
    ∀ q, IsOrthonormalPair V q →
      quadForm V C q.1 + quadForm V C q.2 ≤ quadForm V C p.1 + quadForm V C p.2

/-- A choice of principal pair for a given scatter matrix.  The choice
depends only on `V` and the matrix `C`. -/
noncomputable def principalPair (V : Finset String) (C : String → String → ℝ) :
    (String → ℝ) × (String → ℝ) :=
  Classical.epsilon (IsPrincipalPair V C)

/-- Modelled from the spec: `sklearn.decomposition.PCA(n_components=2).fit_transform`
is library code, not part of this repository.  Per the spec it is "a
variance-maximizing linear projection fitted only on the kept set": we
center the rows at their mean and project each centered row on a pair
of principal directions computed from the scatter matrix of the rows
(so the fit depends only on the multiset of input rows). -/
noncomputable def pca2 (V : Finset String) (rows : List (String → ℝ)) : List (ℝ × ℝ) :=
  rows.map (fun r =>
    (∑ t ∈ V, (r t - meanVec rows t) * (principalPair V (covMat rows)).1 t,
     ∑ t ∈ V, (r t - meanVec rows t) * (principalPair V (covMat rows)).2 t))

/-- `cosine_similarity(query_vec, tfidf_matrix).flatten()[i]`:
`cosine_similarity` L2-normalizes both operands (a second time — the
rows are already normalized) and takes dot products.  Beyond the matrix
the model reads a zero row; the pipeline below never does. -/
noncomputable def similarity_scores (e : Engine) (q : String) (i : ℕ) : ℝ :=
  dotF e.vectorizer.vocab (l2nF e.vectorizer.vocab (e.vectorizer.transform q))
    (l2nF e.vectorizer.vocab (e.tfidf_matrix.getD i (fun _ => 0)))

/-- `similarity_scores.argsort()[::-1][:top_n]` followed by
`[i for i in top_indices if similarity_scores[i] > 0]`: indices of the
score array sorted by weakly descending score (numpy's tie order among
equal scores is unspecified; we fix a deterministic sort), truncated to
`top_n`, keeping only strictly positive scores. -/
noncomputable def top_indices (e : Engine) (q : String) (top_n : ℕ) : List ℕ :=
  (((List.range e.tfidf_matrix.length).mergeSort
      (fun i j => decide (similarity_scores e q j ≤ similarity_scores e q i))).take top_n).filter
    (fun i => decide (0 < similarity_scores e q i))

/-- One row of the `results` dataframe: the copied corpus row plus the
`relevance`, `x` and `y` columns added by `search_and_cluster`. -/
structure ResultRow where
  code : String
  description : String
  search_text : String
  relevance : ℝ
  x : ℝ
  y : ℝ

/-- The row of `results` for kept index `i` and coordinate pair `c`:
`df.iloc[i]` copied, with `relevance` set to the score and `x`, `y` to
the coordinates. -/
noncomputable def mkRow (e : Engine) (q : String) (i : ℕ) (c : ℝ × ℝ) : ResultRow :=
  { code := (e.df.getD i ⟨"", "", ""⟩).code
  , description := (e.df.getD i ⟨"", "", ""⟩).description
  , search_text := (e.df.getD i ⟨"", "", ""⟩).search_text
  , relevance := similarity_scores e q i
  , x := c.1
  , y := c.2 }

/-- The coordinate column: if at least 3 rows were kept, PCA fitted on
the kept rows' matrix vectors (`tfidf_matrix[top_indices].toarray()`);
otherwise the explicit `results['x'] = 0; results['y'] = 0` branch. -/
noncomputable def coordsOf (e : Engine) (q : String) (top_n : ℕ) : List (ℝ × ℝ) :=
  if 3 ≤ (top_indices e q top_n).length then
    pca2 e.vectorizer.vocab ((top_indices e q top_n).map (fun i => e.tfidf_matrix.getD i (fun _ => 0)))
  else (top_indices e q top_n).map (fun _ => ((0 : ℝ), (0 : ℝ)))

/-- `search_and_cluster` of `src/app.py`, with the read of the
process-wide engine made explicit: the function receives the engine and
returns it alongside the result, reconstructed field by field, so that
the frame property "the corpus state is not mutated" is a theorem
rather than a convention.  The first component is the Python return
value `(results, query_vec)`; an empty dataframe with `None` becomes
`([], none)`. -/
noncomputable def search_and_cluster_st (e : Engine) (query : String) (top_n : ℕ) :
    (List ResultRow × Option (String → ℝ)) × Engine :=
  if query = "" then (([], none), e)
  else if top_indices e query top_n = [] then (([], none), e)
  else
    ((List.zipWith (mkRow e query) (top_indices e query top_n) (coordsOf e query top_n),
      some (e.vectorizer.transform query)),
     { df := e.df, vectorizer := e.vectorizer, tfidf_matrix := e.tfidf_matrix })

/-- `search_and_cluster(query, top_n)` as called by the page: reads the
memoized engine.  The Python default is `top_n=15`. -/
noncomputable def search_and_cluster (query : String) (top_n : ℕ) :
    List ResultRow × Option (String → ℝ) :=
  (search_and_cluster_st load_engine query top_n).1

example : tokenize "Aircraft not otherwise provided for; Unmanned aerial vehicles (drones)" =
    ["aircraft", "provided", "unmanned", "aerial", "vehicles", "drones"] := by decide

example : tokenize "" = [] := by decide

example : docToks 4 = ["b60w", "30", "00", "road", "vehicle", "drive", "control",
    "systems", "autonomous", "driving", "adas"] := by decide

/-! ## Basic facts about the TF-IDF weights and normalization -/

lemma dfN_le : dfN t ≤ docTokensList.length := List.length_filter_le _ _

lemma idf_pos (t : String) : 0 < idf t := by
  have h1 : (0 : ℝ) < 1 + (dfN t : ℝ) := by positivity
  have h2 : (1 : ℝ) ≤ (1 + (docTokensList.length : ℝ)) / (1 + (dfN t : ℝ)) := by
    rw [le_div_iff₀ h1]
    have := dfN_le (t := t)
    have : (dfN t : ℝ) ≤ (docTokensList.length : ℝ) := by exact_mod_cast this
    linarith
  have := Real.log_nonneg h2
  unfold idf
  linarith

lemma l2nF_scale_pos (V : Finset String) (u : String → ℝ) :
    0 < (if norm2F V u = 0 then 1 else norm2F V u) := by
  split
  · exact one_pos
  · rename_i h
    exact lt_of_le_of_ne (Real.sqrt_nonneg _) (Ne.symm h)

lemma l2nF_nonneg (V : Finset String) (u : String → ℝ) (t : String) (h : 0 ≤ u t) :
    0 ≤ l2nF V u t :=
  div_nonneg h (l2nF_scale_pos V u).le

lemma l2nF_pos_iff (V : Finset String) (u : String → ℝ) (t : String) :
    0 < l2nF V u t ↔ 0 < u t := by
  unfold l2nF
  rw [div_eq_mul_inv]
  exact mul_pos_iff_of_pos_right (inv_pos.2 (l2nF_scale_pos V u))

lemma dotF_nonneg (V : Finset String) (u v : String → ℝ)
    (hu : ∀ t ∈ V, 0 ≤ u t) (hv : ∀ t ∈ V, 0 ≤ v t) : 0 ≤ dotF V u v :=
  Finset.sum_nonneg (fun t ht => mul_nonneg (hu t ht) (hv t ht))

lemma dotF_pos_iff (V : Finset String) (u v : String → ℝ)
    (hu : ∀ t ∈ V, 0 ≤ u t) (hv : ∀ t ∈ V, 0 ≤ v t) :
    0 < dotF V u v ↔ ∃ t ∈ V, 0 < u t ∧ 0 < v t := by
  constructor
  · intro h
    by_contra hc
    push_neg at hc
    have hz : dotF V u v = 0 := Finset.sum_eq_zero (fun t ht => ?_)
    · rw [hz] at h; exact lt_irrefl 0 h
    · rcases eq_or_lt_of_le (hu t ht) with h0 | hup
      · rw [← h0, zero_mul]
      · have hvz : v t = 0 := le_antisymm (hc t ht hup) (hv t ht)
        rw [hvz, mul_zero]
  · rintro ⟨t, ht, hut, hvt⟩
    exact Finset.sum_pos' (fun s hs => mul_nonneg (hu s hs) (hv s hs))
      ⟨t, ht, mul_pos hut hvt⟩

lemma norm2F_l2nF_le_one (V : Finset String) (u : String → ℝ) :
    norm2F V (l2nF V u) ≤ 1 := by
  by_cases h : norm2F V u = 0
  · have : norm2F V (l2nF V u) = norm2F V u := by
      unfold norm2F l2nF
      rw [if_pos h]
      simp
    rw [this, h]
    exact zero_le_one
  · have hcoord : ∀ t, l2nF V u t = u t / norm2F V u := fun t => by
      unfold l2nF
      rw [if_neg h]
    have hS : (0 : ℝ) ≤ ∑ t ∈ V, u t ^ 2 := Finset.sum_nonneg (fun t _ => sq_nonneg _)
    have hN : norm2F V u ^ 2 = ∑ t ∈ V, u t ^ 2 := Real.sq_sqrt hS
    have hSne : (∑ t ∈ V, u t ^ 2) ≠ 0 := by
      intro h0
      apply h
      unfold norm2F
      rw [h0, Real.sqrt_zero]
    have hsum : (∑ t ∈ V, l2nF V u t ^ 2) = 1 := by
      have hstep : (∑ t ∈ V, l2nF V u t ^ 2) = (∑ t ∈ V, u t ^ 2) / norm2F V u ^ 2 := by
        rw [Finset.sum_div]
        exact Finset.sum_congr rfl (fun t _ => by rw [hcoord t, div_pow])
      rw [hstep, hN, div_self hSne]
    show Real.sqrt (∑ t ∈ V, l2nF V u t ^ 2) ≤ 1
    rw [hsum, Real.sqrt_one]

lemma dotF_le_of_norm (V : Finset String) (u v : String → ℝ) :
    dotF V u v ≤ norm2F V u * norm2F V v :=
  Real.sum_mul_le_sqrt_mul_sqrt V u v

lemma dotF_l2nF_le_one (V : Finset String) (u v : String → ℝ) :
    dotF V (l2nF V u) (l2nF V v) ≤ 1 := by
  have h := dotF_le_of_norm V (l2nF V u) (l2nF V v)
  have h1 := norm2F_l2nF_le_one V u
  have h2 := norm2F_l2nF_le_one V v
  have h0 : (0 : ℝ) ≤ norm2F V (l2nF V v) := Real.sqrt_nonneg _
  nlinarith [Real.sqrt_nonneg (∑ t ∈ V, l2nF V u t ^ 2)]

/-! ## Scores at the loaded engine: sign characterization -/

/-- Row `i` shares at least one analyzed term with the query. -/
def sharesTok (q : String) (i : ℕ) : Prop := ∃ t ∈ tokenize q, t ∈ docToks i

/-- Decidable form of `sharesTok`. -/
def sharesB (q : String) (i : ℕ) : Bool := (tokenize q).any (fun t => (docToks i).contains t)

lemma sharesB_iff (q : String) (i : ℕ) : sharesB q i = true ↔ sharesTok q i := by
  simp [sharesB, sharesTok, List.contains]

lemma rawQueryVec_nonneg (v : Vectorizer) (hidf : ∀ t, 0 ≤ v.idfW t) (q : String)
    (t : String) : 0 ≤ rawQueryVec v q t := by
  unfold rawQueryVec
  refine mul_nonneg ?_ (hidf t)
  split
  · positivity
  · exact le_refl 0

lemma rawQueryVec_pos_iff (v : Vectorizer) (hidf : ∀ t, 0 < v.idfW t) (q : String)
    (t : String) (ht : t ∈ v.vocab) : 0 < rawQueryVec v q t ↔ t ∈ tokenize q := by
  unfold rawQueryVec
  rw [if_pos ht, mul_pos_iff_of_pos_right (hidf t)]
  rw [Nat.cast_pos, List.count_pos_iff]

lemma rawDocVec_nonneg (i : ℕ) (t : String) : 0 ≤ rawDocVec i t :=
  mul_nonneg (by positivity) (idf_pos t).le

lemma rawDocVec_pos_iff (i : ℕ) (t : String) : 0 < rawDocVec i t ↔ t ∈ docToks i := by
  unfold rawDocVec
  rw [mul_pos_iff_of_pos_right (idf_pos t), Nat.cast_pos, List.count_pos_iff]

lemma docToks_mem (i : ℕ) (h : i < docTokensList.length) : docToks i ∈ docTokensList := by
  unfold docToks
  rw [List.getD_eq_getElem?_getD, List.getElem?_eq_getElem h]
  exact List.getElem_mem h

lemma mem_vocab_of_mem_doc {i : ℕ} (h : i < docTokensList.length) {t : String}
    (ht : t ∈ docToks i) : t ∈ vocabFinset := by
  unfold vocabFinset
  exact List.mem_toFinset.2 (List.mem_flatten.2 ⟨docToks i, docToks_mem i h, ht⟩)

lemma load_matrix_length : load_engine.tfidf_matrix.length = docTokensList.length := by
  simp [load_engine]

lemma load_matrix_getD {i : ℕ} (h : i < docTokensList.length) (z : String → ℝ) :
    load_engine.tfidf_matrix.getD i z = tfidfRow i := by
  show (((List.range docTokensList.length).map tfidfRow).getD i z) = tfidfRow i
  rw [List.getD_eq_getElem?_getD, List.getElem?_map, List.getElem?_range h]
  rfl

lemma load_matrix_getD_default {i : ℕ} (h : docTokensList.length ≤ i) (z : String → ℝ) :
    load_engine.tfidf_matrix.getD i z = z := by
  show (((List.range docTokensList.length).map tfidfRow).getD i z) = z
  rw [List.getD_eq_getElem?_getD, List.getElem?_eq_none (by simpa using h)]
  rfl

lemma load_vectorizer : load_engine.vectorizer = ⟨vocabFinset, idf⟩ := rfl

lemma similarity_load_eq {i : ℕ} (h : i < docTokensList.length) (q : String) :
    similarity_scores load_engine q i =
      dotF vocabFinset (l2nF vocabFinset (l2nF vocabFinset (rawQueryVec ⟨vocabFinset, idf⟩ q)))
        (l2nF vocabFinset (l2nF vocabFinset (rawDocVec i))) := by
  unfold similarity_scores
  rw [load_matrix_getD h]
  rfl

lemma similarity_le_one (e : Engine) (q : String) (i : ℕ) :
    similarity_scores e q i ≤ 1 :=
  dotF_l2nF_le_one _ _ _

lemma similarity_load_nonneg (q : String) (i : ℕ) :
    0 ≤ similarity_scores load_engine q i := by
  rcases lt_or_le i docTokensList.length with h | h
  · rw [similarity_load_eq h]
    refine dotF_nonneg _ _ _ (fun t _ => ?_) (fun t _ => ?_)
    · exact l2nF_nonneg _ _ _ (l2nF_nonneg _ _ _
        (rawQueryVec_nonneg _ (fun s => (idf_pos s).le) q t))
    · exact l2nF_nonneg _ _ _ (l2nF_nonneg _ _ _ (rawDocVec_nonneg i t))
  · unfold similarity_scores
    rw [load_matrix_getD_default h]
    refine dotF_nonneg _ _ _ (fun t _ => ?_) (fun t _ => ?_)
    · exact l2nF_nonneg _ _ _ (l2nF_nonneg _ _ _
        (rawQueryVec_nonneg _ (fun s => (idf_pos s).le) q t))
    · exact l2nF_nonneg _ _ _ (le_refl 0)

lemma similarity_load_pos_iff {i : ℕ} (h : i < docTokensList.length) (q : String) :
    0 < similarity_scores load_engine q i ↔ sharesTok q i := by
  rw [similarity_load_eq h]
  rw [dotF_pos_iff _ _ _
    (fun t _ => l2nF_nonneg _ _ _ (l2nF_nonneg _ _ _
      (rawQueryVec_nonneg _ (fun s => (idf_pos s).le) q t)))
    (fun t _ => l2nF_nonneg _ _ _ (l2nF_nonneg _ _ _ (rawDocVec_nonneg i t)))]
  constructor
  · rintro ⟨t, htV, h1, h2⟩
    rw [l2nF_pos_iff, l2nF_pos_iff, rawQueryVec_pos_iff _ idf_pos _ _ htV] at h1
    rw [l2nF_pos_iff, l2nF_pos_iff, rawDocVec_pos_iff] at h2
    exact ⟨t, h1, h2⟩
  · rintro ⟨t, htq, htd⟩
    have htV : t ∈ vocabFinset := mem_vocab_of_mem_doc h htd
    refine ⟨t, htV, ?_, ?_⟩
    · rw [l2nF_pos_iff, l2nF_pos_iff, rawQueryVec_pos_iff _ idf_pos _ _ htV]
      exact htq
    · rw [l2nF_pos_iff, l2nF_pos_iff, rawDocVec_pos_iff]
      exact htd

/-! ## The sort–truncate–filter structure of `top_indices` -/

lemma filter_pos_take_of_sorted {α : Type _} (f : α → ℝ) (n : ℕ) (l : List α)
    (hs : l.Pairwise (fun i j => f j ≤ f i))
    (hc : l.countP (fun i => decide (0 < f i)) ≤ n) :
    (l.take n).filter (fun i => decide (0 < f i)) = l.filter (fun i => decide (0 < f i)) := by
  rcases le_or_lt l.length n with hlen | hlen
  · rw [List.take_of_length_le hlen]
  · conv_rhs => rw [← List.take_append_drop n l]
    rw [List.filter_append]
    have hdrop : (l.drop n).filter (fun i => decide (0 < f i)) = [] := by
      rw [List.filter_eq_nil_iff]
      intro x hx hpos
      have hpos' : 0 < f x := of_decide_eq_true hpos
      have hs' : List.Pairwise (fun i j => f j ≤ f i) (l.take n ++ l.drop n) := by
        rw [List.take_append_drop]
        exact hs
      have hcross := (List.pairwise_append.1 hs').2.2
      have hall : ∀ a ∈ l.take n, (fun i => decide (0 < f i)) a = true := by
        intro a ha
        exact decide_eq_true (lt_of_lt_of_le hpos' (hcross a ha x hx))
      have h1 : (l.take n).countP (fun i => decide (0 < f i)) = (l.take n).length :=
        List.countP_eq_length.2 hall
      have h2 : 0 < (l.drop n).countP (fun i => decide (0 < f i)) :=
        List.countP_pos_iff.2 ⟨x, hx, hpos⟩
      have h3 : l.countP (fun i => decide (0 < f i)) =
          (l.take n).countP (fun i => decide (0 < f i)) +
            (l.drop n).countP (fun i => decide (0 < f i)) := by
        conv_lhs => rw [← List.take_append_drop n l]
        rw [List.countP_append]
      have h4 : (l.take n).length = n := by
        rw [List.length_take]
        omega
      omega
    rw [hdrop, List.append_nil]

lemma mergeSort_scores_sorted (e : Engine) (q : String) :
    ((List.range e.tfidf_matrix.length).mergeSort
        (fun i j => decide (similarity_scores e q j ≤ similarity_scores e q i))).Pairwise
      (fun i j => similarity_scores e q j ≤ similarity_scores e q i) := by
  have hs : ((List.range e.tfidf_matrix.length).mergeSort
      (fun i j => decide (similarity_scores e q j ≤ similarity_scores e q i))).Pairwise
      (fun i j => decide (similarity_scores e q j ≤ similarity_scores e q i) = true) := by
    refine @List.sorted_mergeSort ℕ
      (fun i j => decide (similarity_scores e q j ≤ similarity_scores e q i))
      (fun a b c hab hbc =>
        decide_eq_true (le_trans (of_decide_eq_true hbc) (of_decide_eq_true hab)))
      (fun a b => ?_) (List.range e.tfidf_matrix.length)
    show (decide (similarity_scores e q b ≤ similarity_scores e q a) ||
      decide (similarity_scores e q a ≤ similarity_scores e q b)) = true
    rcases le_total (similarity_scores e q b) (similarity_scores e q a) with h | h
    · rw [decide_eq_true h]
      exact Bool.true_or _
    · rw [decide_eq_true h]
      exact Bool.or_true _
  exact hs.imp (fun h => of_decide_eq_true h)

lemma top_indices_lt (e : Engine) (q : String) (n i : ℕ) (h : i ∈ top_indices e q n) :
    i < e.tfidf_matrix.length := by
  unfold top_indices at h
  have h1 := List.mem_of_mem_filter h
  have h2 := List.mem_of_mem_take h1
  rw [List.mem_mergeSort, List.mem_range] at h2
  exact h2

lemma top_indices_pos (e : Engine) (q : String) (n i : ℕ) (h : i ∈ top_indices e q n) :
    0 < similarity_scores e q i := by
  unfold top_indices at h
  exact of_decide_eq_true (List.mem_filter.1 h).2

lemma top_indices_length_le (e : Engine) (q : String) (n : ℕ) :
    (top_indices e q n).length ≤ n := by
  unfold top_indices
  exact le_trans (List.length_filter_le _ _) (List.length_take_le _ _)

lemma top_indices_sorted (e : Engine) (q : String) (n : ℕ) :
    (top_indices e q n).Pairwise
      (fun i j => similarity_scores e q j ≤ similarity_scores e q i) := by
  unfold top_indices
  exact (mergeSort_scores_sorted e q).sublist
    ((List.filter_sublist _).trans (List.take_sublist _ _))

lemma top_indices_nodup (e : Engine) (q : String) (n : ℕ) :
    (top_indices e q n).Nodup := by
  have h1 : ((List.range e.tfidf_matrix.length).mergeSort
      (fun i j => decide (similarity_scores e q j ≤ similarity_scores e q i))).Nodup :=
    ((List.mergeSort_perm _ _).nodup_iff).2 (List.nodup_range _)
  unfold top_indices
  exact h1.sublist ((List.filter_sublist _).trans (List.take_sublist _ _))

lemma top_indices_eq_filter (e : Engine) (q : String) (n : ℕ)
    (hc : (List.range e.tfidf_matrix.length).countP
      (fun i => decide (0 < similarity_scores e q i)) ≤ n) :
    top_indices e q n = ((List.range e.tfidf_matrix.length).mergeSort
      (fun i j => decide (similarity_scores e q j ≤ similarity_scores e q i))).filter
      (fun i => decide (0 < similarity_scores e q i)) := by
  unfold top_indices
  apply filter_pos_take_of_sorted
  · exact mergeSort_scores_sorted e q
  · rw [(List.mergeSort_perm _ _).countP_eq]
    exact hc

lemma top_indices_length_eq (e : Engine) (q : String) (n : ℕ)
    (hc : (List.range e.tfidf_matrix.length).countP
      (fun i => decide (0 < similarity_scores e q i)) ≤ n) :
    (top_indices e q n).length = (List.range e.tfidf_matrix.length).countP
      (fun i => decide (0 < similarity_scores e q i)) := by
  rw [top_indices_eq_filter e q n hc, ← List.countP_eq_length_filter]
  exact (List.mergeSort_perm _ _).countP_eq _

lemma mem_top_indices (e : Engine) (q : String) (n i : ℕ)
    (hc : (List.range e.tfidf_matrix.length).countP
      (fun i => decide (0 < similarity_scores e q i)) ≤ n) :
    i ∈ top_indices e q n ↔
      i < e.tfidf_matrix.length ∧ 0 < similarity_scores e q i := by
  rw [top_indices_eq_filter e q n hc, List.mem_filter, List.mem_mergeSort, List.mem_range,
    decide_eq_true_eq]

/-! ## Bridging positive scores with decidable token overlap -/

lemma load_countP_eq (q : String) :
    (List.range load_engine.tfidf_matrix.length).countP
      (fun i => decide (0 < similarity_scores load_engine q i)) =
    (List.range docTokensList.length).countP (sharesB q) := by
  rw [load_matrix_length]
  apply List.countP_congr
  intro i hi
  rw [List.mem_range] at hi
  simp only [decide_eq_true_eq]
  exact (similarity_load_pos_iff hi q).trans (sharesB_iff q i).symm

lemma top_indices_empty_query (n : ℕ) : top_indices load_engine "" n = [] := by
  unfold top_indices
  rw [List.filter_eq_nil_iff]
  intro i hi hpos
  have hlt : i < docTokensList.length := by
    have h2 := List.mem_of_mem_take hi
    rw [List.mem_mergeSort, List.mem_range, load_matrix_length] at h2
    exact h2
  have := (similarity_load_pos_iff hlt "").1 (of_decide_eq_true hpos)
  rcases this with ⟨t, ht, _⟩
  have : tokenize "" = [] := rfl
  rw [this] at ht
  exact List.not_mem_nil t ht

/-! ## Structure of the `results` dataframe -/

lemma zipWith_map_left {α β γ δ : Type _} (f : α → β → γ) (g : γ → δ) (g' : α → δ)
    (hfg : ∀ a b, g (f a b) = g' a) :
    ∀ (l1 : List α) (l2 : List β), l1.length ≤ l2.length →
      (List.zipWith f l1 l2).map g = l1.map g'
  | [], _, _ => by simp
  | a :: l1, [], h => by simp at h
  | a :: l1, b :: l2, h => by
    simp only [List.zipWith_cons_cons, List.map_cons, hfg]
    rw [zipWith_map_left f g g' hfg l1 l2 (by simpa using h)]

lemma pca2_length (V : Finset String) (rows : List (String → ℝ)) :
    (pca2 V rows).length = rows.length := by
  unfold pca2
  rw [List.length_map]

lemma coordsOf_length (e : Engine) (q : String) (n : ℕ) :
    (coordsOf e q n).length = (top_indices e q n).length := by
  unfold coordsOf
  split
  · rw [pca2_length, List.length_map]
  · rw [List.length_map]

lemma search_st_empty_query (e : Engine) (n : ℕ) :
    search_and_cluster_st e "" n = (([], none), e) := by
  unfold search_and_cluster_st
  rw [if_pos rfl]

lemma search_st_no_match (e : Engine) (q : String) (n : ℕ)
    (h : top_indices e q n = []) : search_and_cluster_st e q n = (([], none), e) := by
  unfold search_and_cluster_st
  by_cases hq : q = ""
  · rw [if_pos hq]
  · rw [if_neg hq, if_pos h]

lemma search_st_rows (e : Engine) (q : String) (n : ℕ) (hq : q ≠ "")
    (h : top_indices e q n ≠ []) :
    (search_and_cluster_st e q n).1.1 =
      List.zipWith (mkRow e q) (top_indices e q n) (coordsOf e q n) := by
  unfold search_and_cluster_st
  rw [if_neg hq, if_neg h]

lemma search_rows_map {δ : Type _} (q : String) (n : ℕ) (g : ResultRow → δ) (g' : ℕ → δ)
    (hg : ∀ i c, g (mkRow load_engine q i c) = g' i) :
    ((search_and_cluster q n).1).map g = (top_indices load_engine q n).map g' := by
  by_cases hq : q = ""
  · subst hq
    show (((search_and_cluster_st load_engine "" n).1.1).map g) = _
    rw [search_st_empty_query, top_indices_empty_query]
    rfl
  · by_cases h : top_indices load_engine q n = []
    · show (((search_and_cluster_st load_engine q n).1.1).map g) = _
      rw [search_st_no_match load_engine q n h, h]
      rfl
    · show (((search_and_cluster_st load_engine q n).1.1).map g) = _
      rw [search_st_rows load_engine q n hq h]
      exact zipWith_map_left _ g g' hg _ _ (le_of_eq (coordsOf_length load_engine q n).symm)

lemma search_rows_length (q : String) (n : ℕ) :
    ((search_and_cluster q n).1).length = (top_indices load_engine q n).length := by
  have h := search_rows_map q n (fun _ => ()) (fun _ => ()) (fun _ _ => rfl)
  have h1 := congrArg List.length h
  rw [List.length_map, List.length_map] at h1
  exact h1

/-! ## PCA model: permutation invariance -/

lemma meanVec_perm {l l' : List (String → ℝ)} (h : l.Perm l') : meanVec l = meanVec l' := by
  funext t
  unfold meanVec
  rw [(h.map (fun r => r t)).sum_eq, h.length_eq]

lemma covMat_perm {l l' : List (String → ℝ)} (h : l.Perm l') : covMat l = covMat l' := by
  funext a b
  unfold covMat
  rw [meanVec_perm h]
  exact ((h.map _).sum_eq)

lemma pca2_perm (V : Finset String) {l l' : List (String → ℝ)} (h : l.Perm l') :
    (pca2 V l).Perm (pca2 V l') := by
  unfold pca2
  rw [meanVec_perm h, covMat_perm h]
  exact h.map _

/-! ## Access to the corpus dataframe -/

/-- Code of corpus row `i`. -/
def codeOf (i : ℕ) : String := (corpus.getD i ("", "")).1

/-- Description of corpus row `i`. -/
def descOf (i : ℕ) : String := (corpus.getD i ("", "")).2

lemma docTokensList_length : docTokensList.length = corpus.length := by
  unfold docTokensList searchTexts
  rw [List.length_map, List.length_map]

lemma load_df_getD {i : ℕ} (h : i < corpus.length) :
    load_engine.df.getD i ⟨"", "", ""⟩ =
      ⟨codeOf i, descOf i, codeOf i ++ " " ++ descOf i⟩ := by
  show ((corpus.map (fun p => DfRow.mk p.1 p.2 (p.1 ++ " " ++ p.2))).getD i ⟨"", "", ""⟩) = _
  rw [List.getD_eq_getElem?_getD, List.getElem?_map, List.getElem?_eq_getElem h]
  unfold codeOf descOf
  rw [List.getD_eq_getElem?_getD, List.getElem?_eq_getElem h]
  rfl

lemma zipWith_map_snd {α β γ : Type _} (f : α → β → γ) (g : γ → β)
    (hfg : ∀ a b, g (f a b) = b) :
    ∀ (l1 : List α) (l2 : List β), l2.length ≤ l1.length →
      (List.zipWith f l1 l2).map g = l2
  | _, [], _ => by simp
  | [], b :: l2, h => by simp at h
  | a :: l1, b :: l2, h => by
    simp only [List.zipWith_cons_cons, List.map_cons, hfg]
    rw [zipWith_map_snd f g hfg l1 l2 (by simpa using h)]

set_option maxRecDepth 4000 in
example : (List.range docTokensList.length).countP (sharesB "autonomous swarm drones") = 2 := by
  decide

set_option maxRecDepth 4000 in
example : (List.range docTokensList.length).countP (sharesB "cryptographic") = 1 := by decide

set_option maxRecDepth 4000 in
example : (List.range docTokensList.length).countP (sharesB "aircraft vehicle") = 4 := by decide

set_option maxRecDepth 4000 in
example : (List.range docTokensList.length).countP (sharesB "zzzz qqqq") = 0 := by decide

set_option maxRecDepth 4000 in
example : sharesB "autonomous swarm drones" 0 = true ∧ sharesB "autonomous swarm drones" 4 = true := by
  decide

/-! ## Coordinates column of the results -/

lemma search_coords_map (q : String) (n : ℕ) :
    ((search_and_cluster q n).1).map (fun r => (r.x, r.y)) = coordsOf load_engine q n := by
  by_cases hq : q = ""
  · subst hq
    show ((search_and_cluster_st load_engine "" n).1.1).map _ = _
    rw [search_st_empty_query]
    unfold coordsOf
    rw [top_indices_empty_query]
    rw [if_neg (by simp)]
    rfl
  · by_cases h : top_indices load_engine q n = []
    · show ((search_and_cluster_st load_engine q n).1.1).map _ = _
      rw [search_st_no_match load_engine q n h]
      unfold coordsOf
      rw [h, if_neg (by simp)]
      rfl
    · show ((search_and_cluster_st load_engine q n).1.1).map _ = _
      rw [search_st_rows load_engine q n hq h]
      exact zipWith_map_snd _ _ (fun a b => rfl) _ _ (le_of_eq (coordsOf_length load_engine q n))

lemma top_indices_no_overlap (q : String) (n : ℕ)
    (h : ∀ t ∈ tokenize q, ∀ d ∈ docTokensList, t ∉ d) :
    top_indices load_engine q n = [] := by
  unfold top_indices
  rw [List.filter_eq_nil_iff]
  intro i hi hpos
  have hlt : i < docTokensList.length := by
    have h2 := List.mem_of_mem_take hi
    rw [List.mem_mergeSort, List.mem_range, load_matrix_length] at h2
    exact h2
  rcases (similarity_load_pos_iff hlt q).1 (of_decide_eq_true hpos) with ⟨t, htq, htd⟩
  exact h t htq (docToks i) (docToks_mem i hlt) htd

/-! ## The claims -/

/-- C1: for every query string and every `top_n`, the result set of
`search_and_cluster` has at most `top_n` rows, the rows are ordered by
weakly descending relevance score, and every row is a corpus entry whose
cosine-similarity score against the query is strictly positive (the
row's relevance column being exactly that score). -/
theorem C1_results_truncated_sorted_positive (q : String) (n : ℕ) :
    (search_and_cluster q n).1.length ≤ n ∧
    (search_and_cluster q n).1.Pairwise (fun r s => s.relevance ≤ r.relevance) ∧
    List.Forall (fun r => ∃ i, i < corpus.length ∧ r.code = codeOf i ∧
      r.description = descOf i ∧ r.relevance = similarity_scores load_engine q i ∧
      0 < similarity_scores load_engine q i) (search_and_cluster q n).1 := by
  refine ⟨?_, ?_, ?_⟩
  · rw [search_rows_length]
    exact top_indices_length_le load_engine q n
  · have hmap := search_rows_map q n (fun r => r.relevance)
      (fun i => similarity_scores load_engine q i) (fun i c => rfl)
    have h1 : ((search_and_cluster q n).1.map (fun r => r.relevance)).Pairwise
        (fun x y => y ≤ x) := by
      rw [hmap]
      exact List.pairwise_map.2 (top_indices_sorted load_engine q n)
    exact List.pairwise_map.1 h1
  · rw [List.forall_iff_forall_mem]
    intro r hr
    have hmap := search_rows_map q n (fun r => (r.code, r.description, r.relevance))
      (fun i => ((load_engine.df.getD i ⟨"", "", ""⟩).code,
        (load_engine.df.getD i ⟨"", "", ""⟩).description,
        similarity_scores load_engine q i)) (fun i c => rfl)
    have hmem : (r.code, r.description, r.relevance) ∈
        (search_and_cluster q n).1.map (fun r => (r.code, r.description, r.relevance)) :=
      List.mem_map_of_mem _ hr
    rw [hmap] at hmem
    rcases List.mem_map.1 hmem with ⟨i, hi, heq⟩
    have hlt : i < corpus.length := by
      have h0 := top_indices_lt load_engine q n i hi
      rw [load_matrix_length, docTokensList_length] at h0
      exact h0
    rw [load_df_getD hlt] at heq
    rw [Prod.mk.injEq, Prod.mk.injEq] at heq
    exact ⟨i, hlt, heq.1.symm, heq.2.1.symm, heq.2.2.symm,
      top_indices_pos load_engine q n i hi⟩

/-- C5: the empty query string returns the empty result set and no query
vector (Python: an empty dataframe and `None`, so the page suppresses
the chart); in the model `search_and_cluster` is total, so no exception
is possible. -/
theorem C5_empty_query_empty_result (n : ℕ) :
    search_and_cluster "" n = ([], none) := by
  show (search_and_cluster_st load_engine "" n).1 = _
  rw [search_st_empty_query]

/-- C6: every relevance score attached to a returned row lies in
`[0, 1]`: cosine similarity of the nonnegative TF-IDF vectors is
nonnegative, and at most `1` by the Cauchy–Schwarz inequality. -/
theorem C6_relevance_in_unit_interval (q : String) (n : ℕ) :
    List.Forall (fun r => 0 ≤ r.relevance ∧ r.relevance ≤ 1)
      (search_and_cluster q n).1 := by
  rw [List.forall_iff_forall_mem]
  intro r hr
  have hmap := search_rows_map q n (fun r => r.relevance)
    (fun i => similarity_scores load_engine q i) (fun i c => rfl)
  have hmem : r.relevance ∈ (search_and_cluster q n).1.map (fun r => r.relevance) :=
    List.mem_map_of_mem _ hr
  rw [hmap] at hmem
  rcases List.mem_map.1 hmem with ⟨i, _, heq⟩
  rw [← heq]
  exact ⟨similarity_load_nonneg q i, similarity_le_one load_engine q i⟩

/-- C8: `search_and_cluster` leaves the process-wide engine (dataframe,
fitted vectorizer, TF-IDF matrix) unchanged: in the state-passing model
the engine handed back after any query is the engine that was loaded
(row data is copied into the fresh `results` object, never written back). -/
theorem C8_engine_not_mutated (q : String) (n : ℕ) :
    (search_and_cluster_st load_engine q n).2 = load_engine := by
  unfold search_and_cluster_st
  by_cases hq : q = ""
  · rw [if_pos hq]
  · rw [if_neg hq]
    by_cases h : top_indices load_engine q n = []
    · rw [if_pos h]
    · rw [if_neg h]

/-- C9: `search_and_cluster` is deterministic — two runs with the same
query and the same `top_n` against the same loaded corpus return
identical results (same rows, same scores, same coordinates). -/
theorem C9_deterministic (q1 q2 : String) (n1 n2 : ℕ) (hq : q1 = q2) (hn : n1 = n2) :
    search_and_cluster q1 n1 = search_and_cluster q2 n2 := by
  subst hq
  subst hn
  rfl

/-- Witness for C9 at a concrete input. -/
theorem C9_deterministic_witness :
    search_and_cluster "drones" 15 = search_and_cluster "drones" 15 :=
  C9_deterministic "drones" "drones" 15 15 rfl rfl

/-- C2: a query whose analyzed tokens (after tokenization and stop-word
removal) share no term with any corpus row's token list yields the empty
result set; the model is a total function, so no error is raised. -/
theorem C2_no_overlap_empty_result (q : String) (n : ℕ)
    (h : ∀ t ∈ tokenize q, ∀ d ∈ docTokensList, t ∉ d) :
    search_and_cluster q n = ([], none) := by
  show (search_and_cluster_st load_engine q n).1 = _
  rw [search_st_no_match load_engine q n (top_indices_no_overlap q n h)]

/-- Witness for C2 at a concrete no-overlap query. -/
theorem C2_no_overlap_empty_result_witness :
    (∀ t ∈ tokenize "zzzz qqqq", ∀ d ∈ docTokensList, t ∉ d) ∧
    search_and_cluster "zzzz qqqq" 15 = ([], none) :=
  ⟨by decide, C2_no_overlap_empty_result "zzzz qqqq" 15 (by decide)⟩

/-- C3: when the result set is non-empty with fewer than 3 rows, every
row's coordinate pair is exactly the origin, produced by the explicit
`results['x'] = 0; results['y'] = 0` branch (no error handling is
involved: the branch is an `if`/`else` on the row count). -/
theorem C3_small_results_origin (q : String) (n : ℕ)
    (h1 : (search_and_cluster q n).1 ≠ [])
    (h2 : (search_and_cluster q n).1.length < 3) :
    List.Forall (fun r => r.x = 0 ∧ r.y = 0) (search_and_cluster q n).1 := by
  rw [List.forall_iff_forall_mem]
  intro r hr
  have hlt3 : ¬ 3 ≤ (top_indices load_engine q n).length := by
    rw [← search_rows_length]
    omega
  have hco : coordsOf load_engine q n =
      (top_indices load_engine q n).map (fun _ => ((0 : ℝ), (0 : ℝ))) := by
    unfold coordsOf
    rw [if_neg hlt3]
  have hmem : (r.x, r.y) ∈ (top_indices load_engine q n).map
      (fun _ => ((0 : ℝ), (0 : ℝ))) := by
    rw [← hco, ← search_coords_map q n]
    exact List.mem_map_of_mem _ hr
  rcases List.mem_map.1 hmem with ⟨i, _, heq⟩
  rw [Prod.mk.injEq] at heq
  exact ⟨heq.1.symm, heq.2.symm⟩

/-- Witness for C3: the query `"cryptographic"` matches exactly one
corpus row, so its single returned row sits at the origin. -/
theorem C3_small_results_origin_witness :
    (search_and_cluster "cryptographic" 15).1 ≠ [] ∧
    (search_and_cluster "cryptographic" 15).1.length < 3 ∧
    List.Forall (fun r => r.x = 0 ∧ r.y = 0) (search_and_cluster "cryptographic" 15).1 := by
  have hc : (List.range load_engine.tfidf_matrix.length).countP
      (fun i => decide (0 < similarity_scores load_engine "cryptographic" i)) ≤ 15 := by
    rw [load_countP_eq]
    decide
  have hlen : (search_and_cluster "cryptographic" 15).1.length = 1 := by
    rw [search_rows_length, top_indices_length_eq load_engine "cryptographic" 15 hc,
      load_countP_eq]
    decide
  have h1 : (search_and_cluster "cryptographic" 15).1 ≠ [] := by
    intro h0
    rw [h0] at hlen
    simp at hlen
  have h2 : (search_and_cluster "cryptographic" 15).1.length < 3 := by
    rw [hlen]
    decide
  exact ⟨h1, h2, C3_small_results_origin "cryptographic" 15 h1 h2⟩

/-- C4: when at least 3 rows are kept, the coordinate pairs are exactly
the PCA projection fitted on the kept rows' TF-IDF vectors only (not the
whole corpus); each projected coordinate is a real-valued 2-tuple (the
projection preserves the row count), and the fitted projection is
invariant under re-ordering of the input rows: permuted input rows give
the same multiset of projected points. -/
theorem C4_pca_fitted_on_kept_rows (q : String) (n : ℕ)
    (h3 : 3 ≤ (search_and_cluster q n).1.length) :
    ((search_and_cluster q n).1.map (fun r => (r.x, r.y)) =
      pca2 vocabFinset ((top_indices load_engine q n).map
        (fun i => load_engine.tfidf_matrix.getD i (fun _ => 0)))) ∧
    (∀ (V : Finset String) (l l' : List (String → ℝ)),
      l.Perm l' → (pca2 V l).Perm (pca2 V l')) ∧
    (∀ (V : Finset String) (l : List (String → ℝ)), (pca2 V l).length = l.length) := by
  refine ⟨?_, fun V l l' hp => pca2_perm V hp, fun V l => pca2_length V l⟩
  have hlen3 : 3 ≤ (top_indices load_engine q n).length := by
    rw [← search_rows_length]
    exact h3
  rw [search_coords_map q n]
  unfold coordsOf
  rw [if_pos hlen3]
  rfl

/-- Witness for C4: the query `"aircraft vehicle"` keeps 4 rows. -/
theorem C4_pca_fitted_on_kept_rows_witness :
    3 ≤ (search_and_cluster "aircraft vehicle" 15).1.length ∧
    ((search_and_cluster "aircraft vehicle" 15).1.map (fun r => (r.x, r.y)) =
      pca2 vocabFinset ((top_indices load_engine "aircraft vehicle" 15).map
        (fun i => load_engine.tfidf_matrix.getD i (fun _ => 0)))) := by
  have hc : (List.range load_engine.tfidf_matrix.length).countP
      (fun i => decide (0 < similarity_scores load_engine "aircraft vehicle" i)) ≤ 15 := by
    rw [load_countP_eq]
    decide
  have hlen : (search_and_cluster "aircraft vehicle" 15).1.length = 4 := by
    rw [search_rows_length, top_indices_length_eq load_engine "aircraft vehicle" 15 hc,
      load_countP_eq]
    decide
  have h3 : 3 ≤ (search_and_cluster "aircraft vehicle" 15).1.length := by
    rw [hlen]
    decide
  exact ⟨h3, (C4_pca_fitted_on_kept_rows "aircraft vehicle" 15 h3).1⟩

/-- The 16 CPC codes of the corpus are pairwise distinct. -/
lemma codes_injective : ∀ x < corpus.length, ∀ y < corpus.length, x ≠ y → codeOf x ≠ codeOf y := by
  decide

/-- C7: the scenario query `"autonomous swarm drones"` against the fixed
demo corpus surfaces both `B64C 39/02` (token overlap "drones") and
`B60W 30/00` (token overlap "autonomous") in the result set. -/
theorem C7_scenario_swarm_drones :
    (∃ r ∈ (search_and_cluster "autonomous swarm drones" 15).1, r.code = "B64C 39/02") ∧
    (∃ r ∈ (search_and_cluster "autonomous swarm drones" 15).1, r.code = "B60W 30/00") := by
  have hc : (List.range load_engine.tfidf_matrix.length).countP
      (fun i => decide (0 < similarity_scores load_engine "autonomous swarm drones" i)) ≤ 15 := by
    rw [load_countP_eq]
    decide
  have hmap := search_rows_map "autonomous swarm drones" 15 (fun r => r.code)
    (fun i => (load_engine.df.getD i ⟨"", "", ""⟩).code) (fun i c => rfl)
  have hmem : ∀ i : ℕ, i ∈ top_indices load_engine "autonomous swarm drones" 15 →
      ∃ r ∈ (search_and_cluster "autonomous swarm drones" 15).1,
        r.code = (load_engine.df.getD i ⟨"", "", ""⟩).code := by
    intro i hi
    have h0 : (load_engine.df.getD i ⟨"", "", ""⟩).code ∈
        (search_and_cluster "autonomous swarm drones" 15).1.map (fun r => r.code) := by
      rw [hmap]
      exact List.mem_map_of_mem _ hi
    rcases List.mem_map.1 h0 with ⟨r, hr, heq⟩
    exact ⟨r, hr, heq⟩
  constructor
  · have h0 : (0 : ℕ) ∈ top_indices load_engine "autonomous swarm drones" 15 := by
      rw [mem_top_indices load_engine "autonomous swarm drones" 15 0 hc]
      refine ⟨by rw [load_matrix_length]; decide, ?_⟩
      exact (similarity_load_pos_iff (show (0 : ℕ) < docTokensList.length by decide)
        "autonomous swarm drones").2 ((sharesB_iff _ 0).1 (by decide))
    rcases hmem 0 h0 with ⟨r, hr, heq⟩
    refine ⟨r, hr, ?_⟩
    rw [heq, load_df_getD (show (0 : ℕ) < corpus.length by decide)]
    decide
  · have h4 : (4 : ℕ) ∈ top_indices load_engine "autonomous swarm drones" 15 := by
      rw [mem_top_indices load_engine "autonomous swarm drones" 15 4 hc]
      refine ⟨by rw [load_matrix_length]; decide, ?_⟩
      exact (similarity_load_pos_iff (show (4 : ℕ) < docTokensList.length by decide)
        "autonomous swarm drones").2 ((sharesB_iff _ 4).1 (by decide))
    rcases hmem 4 h4 with ⟨r, hr, heq⟩
    refine ⟨r, hr, ?_⟩
    rw [heq, load_df_getD (show (4 : ℕ) < corpus.length by decide)]
    decide

/-- C10: the kept indices are pairwise distinct indices of the 16-row
corpus, every returned row carries the code and description of its
corpus row unchanged, and no corpus row appears twice (the code column
of the result is duplicate-free). -/
theorem C10_rows_from_corpus_no_duplicates (q : String) (n : ℕ) :
    (top_indices load_engine q n).Nodup ∧
    List.Forall (fun i => i < corpus.length) (top_indices load_engine q n) ∧
    ((search_and_cluster q n).1.map (fun r => (r.code, r.description)) =
      (top_indices load_engine q n).map (fun i => (codeOf i, descOf i))) ∧
    ((search_and_cluster q n).1.map (fun r => r.code)).Nodup := by
  have hlt : ∀ i ∈ top_indices load_engine q n, i < corpus.length := by
    intro i hi
    have h0 := top_indices_lt load_engine q n i hi
    rw [load_matrix_length, docTokensList_length] at h0
    exact h0
  refine ⟨top_indices_nodup load_engine q n, ?_, ?_, ?_⟩
  · rw [List.forall_iff_forall_mem]
    exact hlt
  · have hmap := search_rows_map q n (fun r => (r.code, r.description))
      (fun i => ((load_engine.df.getD i ⟨"", "", ""⟩).code,
        (load_engine.df.getD i ⟨"", "", ""⟩).description)) (fun i c => rfl)
    rw [hmap]
    apply List.map_congr_left
    intro i hi
    rw [load_df_getD (hlt i hi)]
  · have hmap := search_rows_map q n (fun r => r.code)
      (fun i => (load_engine.df.getD i ⟨"", "", ""⟩).code) (fun i c => rfl)
    rw [hmap]
    have hmap2 : (top_indices load_engine q n).map
        (fun i => (load_engine.df.getD i ⟨"", "", ""⟩).code) =
        (top_indices load_engine q n).map codeOf := by
      apply List.map_congr_left
      intro i hi
      rw [load_df_getD (hlt i hi)]
    rw [hmap2]
    refine List.Nodup.map_on ?_ (top_indices_nodup load_engine q n)
    intro x hx y hy hxy
    by_contra hne
    exact absurd hxy (codes_injective x (hlt x hx) y (hlt y hy) hne)
